import Mathlib

set_option autoImplicit false

/-!
Shallow embedding of the cycle render-surface layer (src/render and src/ui/render).

The geometric value types come from `render.h`; `f32` components are modelled as
rationals.  Backend (Direct2D / DirectWrite) calls are modelled as events on an
explicit trace, with boolean oracles standing for the `HRESULT` of each fallible
backend call.  Heap allocations (`new` / `delete`) on the constructor paths are
modelled as alloc/free events so that the failure-path cleanup can be stated.
-/

namespace Cycle

/-- Packed 32-bit color (`typedef u32 Color` in render.h), modelled as a natural
number; the functions below only inspect its low 32 bits. -/
abbrev Color := Nat

/-- Offset value type from render.h. -/
structure Offset where
  dx : ℚ
  dy : ℚ
deriving DecidableEq

/-- Size value type from render.h. -/
structure Size where
  width : ℚ
  height : ℚ
deriving DecidableEq

/-- Rect value type from render.h. -/
structure Rect where
  offset : Offset
  size : Size
deriving DecidableEq

/-- Rounded-rect value type from render.h. -/
structure RRect where
  rect : Rect
  rx : ℚ
  ry : ℚ
deriving DecidableEq

/-- Oval value type from render.h. -/
structure Oval where
  offset : Offset
  rx : ℚ
  ry : ℚ
deriving DecidableEq

/-- Device-native color record (`D2D1_COLOR_F`). -/
structure ColorF where
  r : ℚ
  g : ℚ
  b : ℚ
  a : ℚ
deriving DecidableEq

/-- Device-native point record (`D2D1_POINT_2F`). -/
structure D2DPoint where
  x : ℚ
  y : ℚ
deriving DecidableEq

/-- Device-native size record (`D2D1_SIZE_F`). -/
structure D2DSize where
  width : ℚ
  height : ℚ
deriving DecidableEq

/-- Device-native rect record (`D2D1_RECT_F`). -/
structure D2DRect where
  left : ℚ
  top : ℚ
  right : ℚ
  bottom : ℚ
deriving DecidableEq

/-- Device-native rounded-rect record (`D2D1_ROUNDED_RECT`). -/
structure D2DRoundedRect where
  rect : D2DRect
  radiusX : ℚ
  radiusY : ℚ
deriving DecidableEq

/-- Device-native ellipse record (`D2D1_ELLIPSE`). -/
structure D2DEllipse where
  point : D2DPoint
  radiusX : ℚ
  radiusY : ℚ
deriving DecidableEq

/-- Red channel bits of `colorToD2D` in render/internal.cc:
`(color & (0xFF << 24)) >> 24`. -/
def chanR (color : Color) : Nat := (color &&& (0xFF <<< 24)) >>> 24

/-- Green channel bits: `(color & (0xFF << 16)) >> 16`. -/
def chanG (color : Color) : Nat := (color &&& (0xFF <<< 16)) >>> 16

/-- Blue channel bits: `(color & (0xFF << 8)) >> 8`. -/
def chanB (color : Color) : Nat := (color &&& (0xFF <<< 8)) >>> 8

/-- Alpha channel bits: `(color & (0xFF << 0)) >> 0`. -/
def chanA (color : Color) : Nat := (color &&& (0xFF <<< 0)) >>> 0

/-- Embedding of `colorToD2D` (render/internal.cc): each channel byte divided by
255, in the order red, green, blue, alpha from the most-significant byte down. -/
def colorToD2D (color : Color) : ColorF :=
  { r := (chanR color : ℚ) / 255
    g := (chanG color : ℚ) / 255
    b := (chanB color : ℚ) / 255
    a := (chanA color : ℚ) / 255 }

/-- Embedding of `offsetToD2D` (render/internal.cc). -/
def offsetToD2D (offset : Offset) : D2DPoint :=
  { x := offset.dx, y := offset.dy }

/-- Embedding of `sizeToD2D` (render/internal.cc). -/
def sizeToD2D (size : Size) : D2DSize :=
  { width := size.width, height := size.height }

/-- Embedding of `rectToD2D` (render/internal.cc). -/
def rectToD2D (r : Rect) : D2DRect :=
  { left := r.offset.dx
    top := r.offset.dy
    right := r.offset.dx + r.size.width
    bottom := r.offset.dy + r.size.height }

/-- Embedding of `rrectToD2D` (render/internal.cc). -/
def rrectToD2D (rr : RRect) : D2DRoundedRect :=
  { rect := rectToD2D rr.rect, radiusX := rr.rx, radiusY := rr.ry }

/-- Modelled from the spec: `ovalToD2D` is declared in ui/render/internal.h and
used by `drawOval`, but its definition is absent from the sources.  The spec
describes it as the oval → device-native geometry record conversion, so the
oval's offset becomes the ellipse center and rx/ry its radii. -/
def ovalToD2D (o : Oval) : D2DEllipse :=
  { point := { x := o.offset.dx, y := o.offset.dy }
    radiusX := o.rx
    radiusY := o.ry }

/-- Bitmap interpolation mode passed to `DrawBitmap`. -/
inductive InterpMode where
  | nearestNeighbor
  | linear
deriving DecidableEq

/-- TextLayout handle state (`struct Text` in ui/render/internal.h and the identical
`struct RenderText` in render/internal.h): the transcoded character count and the
two owned backend resources; `none` models a null pointer. -/
structure Text where
  chars_len : Nat
  format : Option Nat
  layout : Option Nat
deriving DecidableEq

/-- Backend draw/resource events issued by the draw primitives, in program order. -/
inductive Ev where
  | createSolidColorBrush (target : Nat) (id : Nat) (color : ColorF) (opacity : ℚ)
  | releaseBrush (id : Nat)
  | drawRectangleCall (target : Nat) (rect : D2DRect) (brush : Nat)
  | drawRoundedRectangleCall (target : Nat) (rrect : D2DRoundedRect) (brush : Nat)
  | drawEllipseCall (target : Nat) (ellipse : D2DEllipse) (brush : Nat)
  | drawTextLayoutCall (target : Nat) (origin : D2DPoint) (layout : Option Nat) (brush : Nat)
  | beginDrawCall (target : Nat)
  | clearCall (target : Nat) (color : ColorF)
  | getBitmapCall (target : Nat)
  | drawBitmapCall (target : Nat) (bitmap : Nat) (dest : D2DRect) (opacity : ℚ)
      (interp : InterpMode)
deriving DecidableEq

/-- Backend brush-allocation state: the next fresh backend handle and the list of
currently live (created, not yet released) brush handles. -/
structure Dev where
  nextId : Nat
  live : List Nat
deriving DecidableEq

/-- Offscreen surface handle (`struct Object` in ui/render/internal.h): the backend
bitmap render-target handle. -/
structure Object where
  target : Nat
deriving DecidableEq

/-- Onscreen surface handle (`struct Window` in ui/render/internal.h): the backend
hwnd render-target handle. -/
structure Window where
  target : Nat
deriving DecidableEq

/-- Embedding of `createFillBrush` (render/internal.cc): normalizes the color,
sets brush opacity 1.0 and creates a solid-color brush on the object's target.
The call's `HRESULT` is ignored by the source, so brush creation is modelled as
always yielding the next fresh handle. -/
def createFillBrush (dev : Dev) (obj : Object) (color : Color) : Nat × Dev × List Ev :=
  (dev.nextId,
   { nextId := dev.nextId + 1, live := dev.nextId :: dev.live },
   [Ev.createSolidColorBrush obj.target dev.nextId (colorToD2D color) 1])

/-- Embedding of the `RELEASE` macro applied to a brush handle: the handle is
released and removed from the live set. -/
def releaseBrush (dev : Dev) (b : Nat) : Dev × List Ev :=
  ({ nextId := dev.nextId, live := dev.live.erase b }, [Ev.releaseBrush b])

/-- Embedding of `drawRect` (ui/render/object.cc): create a fill brush, draw the
rectangle with it, release the brush. -/
def drawRect (dev : Dev) (obj : Object) (rect : Rect) (c : Color) : Dev × List Ev :=
  let cb := createFillBrush dev obj c
  let dr := [Ev.drawRectangleCall obj.target (rectToD2D rect) cb.1]
  let rel := releaseBrush cb.2.1 cb.1
  (rel.1, cb.2.2 ++ dr ++ rel.2)

/-- Embedding of `drawRRect` (ui/render/object.cc). -/
def drawRRect (dev : Dev) (obj : Object) (rrect : RRect) (color : Color) : Dev × List Ev :=
  let cb := createFillBrush dev obj color
  let dr := [Ev.drawRoundedRectangleCall obj.target (rrectToD2D rrect) cb.1]
  let rel := releaseBrush cb.2.1 cb.1
  (rel.1, cb.2.2 ++ dr ++ rel.2)

/-- Embedding of `drawOval` (ui/render/object.cc). -/
def drawOval (dev : Dev) (obj : Object) (oval : Oval) (color : Color) : Dev × List Ev :=
  let cb := createFillBrush dev obj color
  let dr := [Ev.drawEllipseCall obj.target (ovalToD2D oval) cb.1]
  let rel := releaseBrush cb.2.1 cb.1
  (rel.1, cb.2.2 ++ dr ++ rel.2)

/-- Embedding of `drawText` (ui/render/object.cc): the fill brush is created from
the literal color `0xFF` and released after the `DrawTextLayout` call. -/
def drawText (dev : Dev) (obj : Object) (text : Text) (offset : Offset) : Dev × List Ev :=
  let fb := createFillBrush dev obj 0xFF
  let dr := [Ev.drawTextLayoutCall obj.target (offsetToD2D offset) text.layout fb.1]
  let rel := releaseBrush fb.2.1 fb.1
  (rel.1, fb.2.2 ++ dr ++ rel.2)

/-- Embedding of `beginFrame` (ui/render/window.cc): `BeginDraw` on the window's
target followed by `Clear(colorToD2D(0xFFFFFFFF))`. -/
def beginFrame (wnd : Window) : List Ev :=
  [Ev.beginDrawCall wnd.target, Ev.clearCall wnd.target (colorToD2D 0xFFFFFFFF)]

/-- Backend association from a bitmap render target to its bitmap, as returned by
`GetBitmap`; the bitmap is keyed by the target handle. -/
def getBitmapOf (target : Nat) : Nat := target

/-- Embedding of `drawObject` (ui/render/window.cc): fetch the object's bitmap and
`DrawBitmap` it into the destination rect with opacity `1.0` and linear
interpolation. -/
def drawObject (wnd : Window) (obj : Object) (pos : Rect) : List Ev :=
  [Ev.getBitmapCall obj.target,
   Ev.drawBitmapCall wnd.target (getBitmapOf obj.target) (rectToD2D pos) 1 InterpMode.linear]

/-- Resources allocated on the constructor paths at the public boundary. -/
inductive Res where
  | windowMem
  | windowTarget
  | objectMem
  | objectTarget
  | textMem
  | textChars
  | textFormat
  | textLayout
deriving DecidableEq

/-- Allocation events on the constructor/destructor paths: `alloc` models a `new`
or a successful backend resource creation, `free` the matching `delete` or
`Release`. -/
inductive CEv where
  | alloc (r : Res)
  | free (r : Res)
deriving DecidableEq

/-- Embedding of `destroyWindow` (ui/render/window.cc): `RELEASE(wnd->target)`
(skipped when the target pointer is null) then `delete wnd`. -/
def destroyWindow (targetPresent : Bool) : List CEv :=
  (if targetPresent then [CEv.free Res.windowTarget] else []) ++ [CEv.free Res.windowMem]

/-- Embedding of `createWindow` (ui/render/window.cc).  `okTarget` models the
`HRESULT` of `CreateHwndRenderTarget`; on failure the fresh `Window` allocation is
destroyed and a null handle is returned. -/
def createWindow (okTarget : Bool) : Option Unit × List CEv :=
  if okTarget then
    (some (), [CEv.alloc Res.windowMem, CEv.alloc Res.windowTarget])
  else
    (none, [CEv.alloc Res.windowMem] ++ destroyWindow false)

/-- Embedding of `createObject` (ui/render/object.cc).  `okTarget` models the
`HRESULT` of `CreateCompatibleRenderTarget`; the source never inspects it, so the
freshly allocated handle is returned in either case. -/
def createObject (okTarget : Bool) : Option Unit × List CEv :=
  (some (),
   [CEv.alloc Res.objectMem] ++ (if okTarget then [CEv.alloc Res.objectTarget] else []))

/-- Continuation-byte test of UTF-8: `0x80 ≤ b < 0xC0`. -/
def isCont (b : Nat) : Bool := 128 ≤ b && b < 192

/-- Shape of a UTF-8 sequence led by byte `b`: the number of continuation bytes
that must follow and the number of UTF-16 code units the sequence transcodes to
(a 4-byte sequence becomes a surrogate pair of two units, every shorter sequence
one unit); `none` for an invalid lead byte. -/
def seqLen (b : Nat) : Option (Nat × Nat) :=
  if b < 128 then some (0, 1)
  else if b < 192 then none
  else if b < 224 then some (1, 1)
  else if b < 240 then some (2, 1)
  else if b < 248 then some (3, 2)
  else none

/-- Consume `k` continuation bytes from the front of a byte list, returning the
remaining suffix; `none` if the list is too short or a byte is not a
continuation byte. -/
def dropCont : Nat → List Nat → Option (List Nat)
  | 0, rest => some rest
  | _ + 1, [] => none
  | k + 1, c :: rest => if isCont c then dropCont k rest else none

/-- Fuel-indexed worker for `utf16Len`; the fuel bounds the number of UTF-8
sequences processed and is instantiated with the byte count, which always
suffices since every sequence consumes at least one byte. -/
def utf16LenF : Nat → List Nat → Option Nat
  | _, [] => some 0
  | 0, _ :: _ => none
  | fuel + 1, b :: rest =>
    match seqLen b with
    | none => none
    | some (k, u) =>
      match dropCont k rest with
      | none => none
      | some rest2 => (utf16LenF fuel rest2).map (· + u)

/-- Modelled from the spec: the number of UTF-16 code units produced when
transcoding a UTF-8 byte sequence, the count returned by the external
`MultiByteToWideChar(CP_UTF8, ...)` call in `createRenderText` (render/text.cc),
which is not part of the sources.  `none` models an invalid sequence. -/
def utf16Len (bytes : List Nat) : Option Nat := utf16LenF bytes.length bytes

/-- Character count recorded by `createRenderText` from the transcoding call. -/
def mbToWcLen (bytes : List Nat) : Nat := (utf16Len bytes).getD 0

/-- Embedding of `destroyRenderText` (render/text.cc): `RELEASE(text->layout)`,
`RELEASE(text->format)` (each skipped when the pointer is null), then
`delete[] text->chars` and `delete text`. -/
def destroyRenderText (t : Text) : List CEv :=
  (if t.layout.isSome then [CEv.free Res.textLayout] else []) ++
    (if t.format.isSome then [CEv.free Res.textFormat] else []) ++
    [CEv.free Res.textChars, CEv.free Res.textMem]

/-- Embedding of `createRenderText` (render/text.cc): allocate the handle and the
transcoded character buffer, then create the text format and the text layout;
`okFormat` and `okLayout` model the `HRESULT`s of `CreateTextFormat` and
`CreateTextLayout`.  On either failure the partially constructed text is passed to
`destroyRenderText` and a null handle is returned. -/
def createRenderText (okFormat okLayout : Bool) (bytes : List Nat) :
    Option Text × List CEv :=
  let t1 : Text := { chars_len := mbToWcLen bytes, format := none, layout := none }
  let ev0 := [CEv.alloc Res.textMem, CEv.alloc Res.textChars]
  if okFormat then
    let t2 : Text := { t1 with format := some 0 }
    if okLayout then
      (some { t2 with layout := some 1 },
       ev0 ++ [CEv.alloc Res.textFormat, CEv.alloc Res.textLayout])
    else
      (none, ev0 ++ [CEv.alloc Res.textFormat] ++ destroyRenderText t2)
  else
    (none, ev0 ++ destroyRenderText t1)

/-- A constructor trace leaks nothing when every allocated resource also has a
release/free event in the same trace. -/
def freedAfterAlloc (tr : List CEv) : Bool :=
  tr.all fun e =>
    match e with
    | CEv.alloc r => decide (CEv.free r ∈ tr)
    | CEv.free _ => true

/-- Maximum-bounding-box state of a backend text layout. -/
structure LayoutBox where
  maxWidth : ℚ
  maxHeight : ℚ
deriving DecidableEq

/-- Constraint-update calls issued by `resizeText`, in program order. -/
inductive TEv where
  | setMaxWidthCall (w : ℚ)
  | setMaxHeightCall (h : ℚ)
deriving DecidableEq

/-- Backend `IDWriteTextLayout::SetMaxWidth`: on success the width constraint is
updated, on failure (modelled by the oracle `ok`) the layout is unchanged. -/
def setMaxWidth (ok : Bool) (s : LayoutBox) (w : ℚ) : Bool × LayoutBox :=
  if ok then (true, { s with maxWidth := w }) else (false, s)

/-- Backend `IDWriteTextLayout::SetMaxHeight`, analogous to `setMaxWidth`. -/
def setMaxHeight (ok : Bool) (s : LayoutBox) (h : ℚ) : Bool × LayoutBox :=
  if ok then (true, { s with maxHeight := h }) else (false, s)

/-- Embedding of `resizeText` (render/text.cc):
`SetMaxWidth(w) == S_OK && SetMaxHeight(h) == S_OK` with C++ short-circuit
evaluation, so the height call is only issued when the width call succeeded. -/
def resizeText (okW okH : Bool) (s : LayoutBox) (size : Size) :
    Bool × LayoutBox × List TEv :=
  let rw := setMaxWidth okW s size.width
  if rw.1 then
    let rh := setMaxHeight okH rw.2 size.height
    (rh.1, rh.2, [TEv.setMaxWidthCall size.width, TEv.setMaxHeightCall size.height])
  else
    (false, rw.2, [TEv.setMaxWidthCall size.width])

/-- Concrete fully constructed text handle used by concrete instances. -/
def fullText : Text := { chars_len := 5, format := some 0, layout := some 1 }

/-- Selector for the release events of the three resources a `Text` owns
(format, layout, transcoded character buffer), used to state their release
order in `destroyRenderText`. -/
def isOwnedTextFree (e : CEv) : Bool :=
  decide (e = CEv.free Res.textFormat) || decide (e = CEv.free Res.textLayout) ||
    decide (e = CEv.free Res.textChars)

/-- Masking with a shifted mask then shifting right is shifting right then
masking. -/
theorem and_shl_shr (x m k : Nat) : (x &&& (m <<< k)) >>> k = (x >>> k) &&& m := by
  apply Nat.eq_of_testBit_eq
  intro i
  simp [Nat.testBit_shiftRight, Nat.testBit_and, Nat.testBit_shiftLeft,
    Nat.add_sub_cancel_left]

/-- Masking with the low byte is reduction mod 256. -/
theorem and_255 (x : Nat) : x &&& 255 = x % 256 := by
  have h : (255 : Nat) = 2 ^ 8 - 1 := by norm_num
  rw [h, Nat.and_pow_two_sub_one_eq_mod]

/-- The red channel of a packed color is its most-significant byte. -/
theorem chanR_eq (c : Color) : chanR c = c / 2 ^ 24 % 256 := by
  unfold chanR
  rw [and_shl_shr, and_255, Nat.shiftRight_eq_div_pow]

/-- The green channel is the second-most-significant byte. -/
theorem chanG_eq (c : Color) : chanG c = c / 2 ^ 16 % 256 := by
  unfold chanG
  rw [and_shl_shr, and_255, Nat.shiftRight_eq_div_pow]

/-- The blue channel is the third byte. -/
theorem chanB_eq (c : Color) : chanB c = c / 2 ^ 8 % 256 := by
  unfold chanB
  rw [and_shl_shr, and_255, Nat.shiftRight_eq_div_pow]

/-- The alpha channel is the least-significant byte. -/
theorem chanA_eq (c : Color) : chanA c = c % 256 := by
  unfold chanA
  have h0 : (0xFF <<< 0 : Nat) = 255 := by norm_num
  rw [h0, and_255]
  rfl

/-- A channel byte divided by 255 lies in the unit interval. -/
theorem byte_div_bounds (x : Nat) (hx : x < 256) :
    0 ≤ (x : ℚ) / 255 ∧ (x : ℚ) / 255 ≤ 1 := by
  constructor
  · positivity
  · rw [div_le_one (by norm_num)]
    exact_mod_cast Nat.le_of_lt_succ hx

/-- The fill brush color for `drawText`, `colorToD2D 0xFF`, is opaque black. -/
theorem colorToD2D_black : colorToD2D 0xFF = { r := 0, g := 0, b := 0, a := 1 } := by
  norm_num [colorToD2D, chanR_eq, chanG_eq, chanB_eq, chanA_eq]

/-- The clear color for `beginFrame`, `colorToD2D 0xFFFFFFFF`, is opaque white. -/
theorem colorToD2D_white :
    colorToD2D 0xFFFFFFFF = { r := 1, g := 1, b := 1, a := 1 } := by
  norm_num [colorToD2D, chanR_eq, chanG_eq, chanB_eq, chanA_eq]

/-- Dropping continuation bytes shortens the list by exactly the dropped count. -/
theorem dropCont_length :
    ∀ k rest rest2, dropCont k rest = some rest2 → rest.length = k + rest2.length := by
  intro k
  induction k with
  | zero =>
    intro rest rest2 h
    simp only [dropCont, Option.some.injEq] at h
    simp [h]
  | succ k ih =>
    intro rest rest2 h
    cases rest with
    | nil => simp [dropCont] at h
    | cons c rest =>
      simp only [dropCont] at h
      by_cases hc : isCont c = true
      · rw [if_pos hc] at h
        have := ih rest rest2 h
        simp only [List.length_cons]
        omega
      · rw [if_neg hc] at h
        cases h

/-- An ASCII byte leads a one-byte sequence transcoding to one unit. -/
theorem seqLen_ascii (b : Nat) (hb : b < 128) : seqLen b = some (0, 1) := by
  simp [seqLen, hb]

/-- Every UTF-8 sequence yields at most one more UTF-16 unit than it has
continuation bytes. -/
theorem seqLen_units_le (b k u : Nat) (h : seqLen b = some (k, u)) : u ≤ k + 1 := by
  unfold seqLen at h
  split at h
  · simp only [Option.some.injEq, Prod.mk.injEq] at h; omega
  · split at h
    · cases h
    · split at h
      · simp only [Option.some.injEq, Prod.mk.injEq] at h; omega
      · split at h
        · simp only [Option.some.injEq, Prod.mk.injEq] at h; omega
        · split at h
          · simp only [Option.some.injEq, Prod.mk.injEq] at h; omega
          · cases h

/-- A multi-byte UTF-8 sequence yields no more UTF-16 units than it has
continuation bytes. -/
theorem seqLen_units_le_cont (b k u : Nat) (hb : 128 ≤ b)
    (h : seqLen b = some (k, u)) : u ≤ k := by
  unfold seqLen at h
  split at h
  · omega
  · split at h
    · cases h
    · split at h
      · simp only [Option.some.injEq, Prod.mk.injEq] at h; omega
      · split at h
        · simp only [Option.some.injEq, Prod.mk.injEq] at h; omega
        · split at h
          · simp only [Option.some.injEq, Prod.mk.injEq] at h; omega
          · cases h

/-- The transcoded unit count never exceeds the byte count (fuel worker). -/
theorem utf16LenF_le :
    ∀ fuel bytes n, utf16LenF fuel bytes = some n → n ≤ bytes.length := by
  intro fuel
  induction fuel with
  | zero =>
    intro bytes n h
    cases bytes with
    | nil => simp only [utf16LenF, Option.some.injEq] at h; omega
    | cons b rest => cases h
  | succ fuel ih =>
    intro bytes n h
    cases bytes with
    | nil => simp only [utf16LenF, Option.some.injEq] at h; omega
    | cons b rest =>
      simp only [utf16LenF] at h
      split at h
      · cases h
      next k u hs =>
        split at h
        · cases h
        next rest2 hd =>
          cases hm : utf16LenF fuel rest2 with
          | none => rw [hm] at h; cases h
          | some m =>
            rw [hm] at h
            simp only [Option.map_some', Option.some.injEq] at h
            have h1 := ih rest2 m hm
            have h2 := dropCont_length k rest rest2 hd
            have h3 := seqLen_units_le b k u hs
            simp only [List.length_cons]
            omega

/-- For pure ASCII bytes any sufficient fuel yields exactly the byte count. -/
theorem utf16LenF_ascii :
    ∀ fuel bytes, bytes.length ≤ fuel → (∀ b ∈ bytes, b < 128) →
      utf16LenF fuel bytes = some bytes.length := by
  intro fuel
  induction fuel with
  | zero =>
    intro bytes hlen _
    cases bytes with
    | nil => rfl
    | cons b rest => simp at hlen
  | succ fuel ih =>
    intro bytes hlen hall
    cases bytes with
    | nil => rfl
    | cons b rest =>
      have hb : b < 128 := hall b (by simp)
      have hrest : ∀ c ∈ rest, c < 128 := fun c hc => hall c (by simp [hc])
      have hlen2 : rest.length ≤ fuel := by
        simp only [List.length_cons] at hlen
        omega
      have hstep : utf16LenF (fuel + 1) (b :: rest) = (utf16LenF fuel rest).map (· + 1) := by
        simp only [utf16LenF, seqLen_ascii b hb]
        rfl
      rw [hstep, ih rest hlen2 hrest]
      simp

/-- A byte at or above 0x80 forces a strict drop in the unit count (fuel
worker). -/
theorem utf16LenF_lt :
    ∀ fuel bytes n, utf16LenF fuel bytes = some n → (∃ b ∈ bytes, 128 ≤ b) →
      n < bytes.length := by
  intro fuel
  induction fuel with
  | zero =>
    intro bytes n h hex
    cases bytes with
    | nil =>
      obtain ⟨b, hb, _⟩ := hex
      cases hb
    | cons b rest => cases h
  | succ fuel ih =>
    intro bytes n h hex
    cases bytes with
    | nil =>
      obtain ⟨b, hb, _⟩ := hex
      cases hb
    | cons b rest =>
      simp only [utf16LenF] at h
      split at h
      · cases h
      next k u hs =>
        split at h
        · cases h
        next rest2 hd =>
          cases hm : utf16LenF fuel rest2 with
          | none => rw [hm] at h; cases h
          | some m =>
            rw [hm] at h
            simp only [Option.map_some', Option.some.injEq] at h
            have h1 := utf16LenF_le fuel rest2 m hm
            have h2 := dropCont_length k rest rest2 hd
            by_cases hb : 128 ≤ b
            · have h3 := seqLen_units_le_cont b k u hb hs
              simp only [List.length_cons]
              omega
            · have hb2 : b < 128 := by omega
              have hs2 := seqLen_ascii b hb2
              rw [hs] at hs2
              simp only [Option.some.injEq, Prod.mk.injEq] at hs2
              obtain ⟨hk, hu⟩ := hs2
              subst hk
              have hd2 : rest2 = rest := by
                have : dropCont 0 rest = some rest := rfl
                rw [hd] at this
                simp only [Option.some.injEq] at this
                exact this
              subst hd2
              obtain ⟨c, hc, hc128⟩ := hex
              simp only [List.mem_cons] at hc
              rcases hc with rfl | hcrest
              · omega
              · have := ih rest2 m hm ⟨c, hcrest, hc128⟩
                simp only [List.length_cons]
                omega

/-- C1 counterexample: `createObject` ignores the result of
`CreateCompatibleRenderTarget`, so when that backend construction step fails
(`okTarget = false`) the constructor still returns a non-null handle, refuting
the claim that every constructor at the public boundary returns a null handle
on backend construction failure. -/
theorem createObject_failure_returns_handle : ¬ ((createObject false).1 = none) := by
  decide

/-- C1 (amended): for `createWindow` and `createText`/`createRenderText`, if any
backend construction step fails the constructor returns a null handle and every
resource allocated earlier in that construction is released before returning;
`createObject`, however, does not inspect the backend result and returns a
non-null handle even when its backend construction step fails. -/
theorem constructor_failure_cleanup (okT okF okL : Bool) (bytes : List Nat)
    (hT : okT = false) (hFL : okF = false ∨ okL = false) :
    ((createWindow okT).1 = none ∧ freedAfterAlloc (createWindow okT).2 = true) ∧
    ((createRenderText okF okL bytes).1 = none ∧
      freedAfterAlloc (createRenderText okF okL bytes).2 = true) ∧
    (createObject okT).1 = some () := by
  subst hT
  refine ⟨⟨rfl, rfl⟩, ?_, rfl⟩
  rcases hFL with h | h
  · subst h
    exact ⟨rfl, rfl⟩
  · subst h
    cases okF
    · exact ⟨rfl, rfl⟩
    · exact ⟨rfl, rfl⟩

/-- Witness for C1 at concrete oracles: window target creation fails and text
format creation fails. -/
theorem constructor_failure_cleanup_witness :
    ((createWindow false).1 = none ∧ freedAfterAlloc (createWindow false).2 = true) ∧
    ((createRenderText false true [72, 105]).1 = none ∧
      freedAfterAlloc (createRenderText false true [72, 105]).2 = true) ∧
    (createObject false).1 = some () :=
  constructor_failure_cleanup false false true [72, 105] rfl (Or.inl rfl)

/-- C2 counterexample: on a fully constructed text, `destroyRenderText` does not
release the owned resources in the claimed order format, layout, buffer — the
layout is released before the format. -/
theorem destroyRenderText_format_first_false :
    ¬ ((destroyRenderText fullText).filter isOwnedTextFree =
       [CEv.free Res.textFormat, CEv.free Res.textLayout, CEv.free Res.textChars]) := by
  decide

/-- C2 (amended): destroying a fully constructed TextLayout releases its three
owned resources in the order text layout first, then text format, then the
transcoded character buffer (followed by freeing the handle itself). -/
theorem destroyRenderText_release_order (t : Text)
    (hf : t.format.isSome = true) (hl : t.layout.isSome = true) :
    destroyRenderText t =
      [CEv.free Res.textLayout, CEv.free Res.textFormat, CEv.free Res.textChars,
       CEv.free Res.textMem] := by
  simp [destroyRenderText, hf, hl]

/-- Witness for C2 at the concrete fully constructed text. -/
theorem destroyRenderText_release_order_witness :
    fullText.format.isSome = true ∧ fullText.layout.isSome = true ∧
    destroyRenderText fullText =
      [CEv.free Res.textLayout, CEv.free Res.textFormat, CEv.free Res.textChars,
       CEv.free Res.textMem] :=
  ⟨by decide, by decide,
   destroyRenderText_release_order fullText (by decide) (by decide)⟩

/-- C3: each shape draw call (`drawRect`, `drawRRect`, `drawOval`) creates a
fresh solid-color brush from the normalized color, draws the given shape with
it, and releases that same brush before returning; the live-brush set is left
unchanged, so no brush is cached across calls. -/
theorem drawShape_transient_brush (dev : Dev) (obj : Object) (rect : Rect)
    (rrect : RRect) (oval : Oval) (c : Color) (hfresh : dev.nextId ∉ dev.live) :
    drawRect dev obj rect c =
      ({ nextId := dev.nextId + 1, live := dev.live },
       [Ev.createSolidColorBrush obj.target dev.nextId (colorToD2D c) 1,
        Ev.drawRectangleCall obj.target (rectToD2D rect) dev.nextId,
        Ev.releaseBrush dev.nextId]) ∧
    drawRRect dev obj rrect c =
      ({ nextId := dev.nextId + 1, live := dev.live },
       [Ev.createSolidColorBrush obj.target dev.nextId (colorToD2D c) 1,
        Ev.drawRoundedRectangleCall obj.target (rrectToD2D rrect) dev.nextId,
        Ev.releaseBrush dev.nextId]) ∧
    drawOval dev obj oval c =
      ({ nextId := dev.nextId + 1, live := dev.live },
       [Ev.createSolidColorBrush obj.target dev.nextId (colorToD2D c) 1,
        Ev.drawEllipseCall obj.target (ovalToD2D oval) dev.nextId,
        Ev.releaseBrush dev.nextId]) := by
  refine ⟨?_, ?_, ?_⟩ <;>
    simp [drawRect, drawRRect, drawOval, createFillBrush, releaseBrush]

/-- Witness for C3 at a concrete device state, surface, shapes and color. -/
theorem drawShape_transient_brush_witness :
    (0 : Nat) ∉ ([] : List Nat) ∧
    (drawRect ⟨0, []⟩ ⟨7⟩ ⟨⟨1, 2⟩, ⟨3, 4⟩⟩ 0xFF0000FF =
      ({ nextId := 1, live := [] },
       [Ev.createSolidColorBrush 7 0 (colorToD2D 0xFF0000FF) 1,
        Ev.drawRectangleCall 7 (rectToD2D ⟨⟨1, 2⟩, ⟨3, 4⟩⟩) 0,
        Ev.releaseBrush 0]) ∧
     drawRRect ⟨0, []⟩ ⟨7⟩ ⟨⟨⟨1, 2⟩, ⟨3, 4⟩⟩, 5, 6⟩ 0xFF0000FF =
      ({ nextId := 1, live := [] },
       [Ev.createSolidColorBrush 7 0 (colorToD2D 0xFF0000FF) 1,
        Ev.drawRoundedRectangleCall 7 (rrectToD2D ⟨⟨⟨1, 2⟩, ⟨3, 4⟩⟩, 5, 6⟩) 0,
        Ev.releaseBrush 0]) ∧
     drawOval ⟨0, []⟩ ⟨7⟩ ⟨⟨1, 2⟩, 3, 4⟩ 0xFF0000FF =
      ({ nextId := 1, live := [] },
       [Ev.createSolidColorBrush 7 0 (colorToD2D 0xFF0000FF) 1,
        Ev.drawEllipseCall 7 (ovalToD2D ⟨⟨1, 2⟩, 3, 4⟩) 0,
        Ev.releaseBrush 0])) :=
  ⟨by decide,
   drawShape_transient_brush ⟨0, []⟩ ⟨7⟩ ⟨⟨1, 2⟩, ⟨3, 4⟩⟩ ⟨⟨⟨1, 2⟩, ⟨3, 4⟩⟩, 5, 6⟩
     ⟨⟨1, 2⟩, 3, 4⟩ 0xFF0000FF (by decide)⟩

/-- C4: `resizeText` reports success exactly when both the width and the height
constraint updates succeed, and in the partial case where the width update
succeeds and the height update fails it returns `false` while leaving the
layout with the width changed and the height unchanged (no rollback). -/
theorem resizeText_reports_both (okW okH : Bool) (s : LayoutBox) (size : Size) :
    ((resizeText okW okH s size).1 = true ↔ (okW = true ∧ okH = true)) ∧
    (resizeText true false s size).1 = false ∧
    (resizeText true false s size).2.1 =
      { maxWidth := size.width, maxHeight := s.maxHeight } := by
  refine ⟨?_, rfl, rfl⟩
  cases okW <;> cases okH <;> simp [resizeText, setMaxWidth, setMaxHeight]

/-- C5: for every 32-bit packed color, the normalized form extracts red from the
most-significant byte, then green, blue, and alpha from the least-significant
byte, each equal to the channel byte divided by 255 and lying in [0, 1]. -/
theorem colorToD2D_normalized (c : Color) (hc : c < 2 ^ 32) :
    ((colorToD2D c).r = ((c / 2 ^ 24 % 256 : Nat) : ℚ) / 255 ∧
     (colorToD2D c).g = ((c / 2 ^ 16 % 256 : Nat) : ℚ) / 255 ∧
     (colorToD2D c).b = ((c / 2 ^ 8 % 256 : Nat) : ℚ) / 255 ∧
     (colorToD2D c).a = ((c % 256 : Nat) : ℚ) / 255) ∧
    (0 ≤ (colorToD2D c).r ∧ (colorToD2D c).r ≤ 1) ∧
    (0 ≤ (colorToD2D c).g ∧ (colorToD2D c).g ≤ 1) ∧
    (0 ≤ (colorToD2D c).b ∧ (colorToD2D c).b ≤ 1) ∧
    (0 ≤ (colorToD2D c).a ∧ (colorToD2D c).a ≤ 1) := by
  have hr : (colorToD2D c).r = ((c / 2 ^ 24 % 256 : Nat) : ℚ) / 255 := by
    simp [colorToD2D, chanR_eq]
  have hg : (colorToD2D c).g = ((c / 2 ^ 16 % 256 : Nat) : ℚ) / 255 := by
    simp [colorToD2D, chanG_eq]
  have hb : (colorToD2D c).b = ((c / 2 ^ 8 % 256 : Nat) : ℚ) / 255 := by
    simp [colorToD2D, chanB_eq]
  have ha : (colorToD2D c).a = ((c % 256 : Nat) : ℚ) / 255 := by
    simp [colorToD2D, chanA_eq]
  refine ⟨⟨hr, hg, hb, ha⟩, ?_, ?_, ?_, ?_⟩
  · rw [hr]
    exact byte_div_bounds (c / 2 ^ 24 % 256) (by omega)
  · rw [hg]
    exact byte_div_bounds (c / 2 ^ 16 % 256) (by omega)
  · rw [hb]
    exact byte_div_bounds (c / 2 ^ 8 % 256) (by omega)
  · rw [ha]
    exact byte_div_bounds (c % 256) (by omega)

/-- Witness for C5 at the concrete color 0x336699CC. -/
theorem colorToD2D_normalized_witness :
    (0x336699CC : Nat) < 2 ^ 32 ∧
    (((colorToD2D 0x336699CC).r = ((0x336699CC / 2 ^ 24 % 256 : Nat) : ℚ) / 255 ∧
      (colorToD2D 0x336699CC).g = ((0x336699CC / 2 ^ 16 % 256 : Nat) : ℚ) / 255 ∧
      (colorToD2D 0x336699CC).b = ((0x336699CC / 2 ^ 8 % 256 : Nat) : ℚ) / 255 ∧
      (colorToD2D 0x336699CC).a = ((0x336699CC % 256 : Nat) : ℚ) / 255) ∧
     (0 ≤ (colorToD2D 0x336699CC).r ∧ (colorToD2D 0x336699CC).r ≤ 1) ∧
     (0 ≤ (colorToD2D 0x336699CC).g ∧ (colorToD2D 0x336699CC).g ≤ 1) ∧
     (0 ≤ (colorToD2D 0x336699CC).b ∧ (colorToD2D 0x336699CC).b ≤ 1) ∧
     (0 ≤ (colorToD2D 0x336699CC).a ∧ (colorToD2D 0x336699CC).a ≤ 1)) :=
  ⟨by norm_num, colorToD2D_normalized 0x336699CC (by norm_num)⟩

/-- C6: `drawText` paints the layout's shaped content at the given offset with a
transient brush whose normalized color is opaque black (r = g = b = 0, a = 1);
the fill color is the fixed literal 0xFF, not a caller parameter. -/
theorem drawText_opaque_black (dev : Dev) (obj : Object) (text : Text)
    (offset : Offset) :
    drawText dev obj text offset =
      ({ nextId := dev.nextId + 1, live := dev.live },
       [Ev.createSolidColorBrush obj.target dev.nextId (colorToD2D 0xFF) 1,
        Ev.drawTextLayoutCall obj.target (offsetToD2D offset) text.layout dev.nextId,
        Ev.releaseBrush dev.nextId]) ∧
    colorToD2D 0xFF = { r := 0, g := 0, b := 0, a := 1 } :=
  ⟨by simp [drawText, createFillBrush, releaseBrush], colorToD2D_black⟩

/-- C7: the transcoded character count recorded by `createRenderText` never
exceeds the input byte length, equals it for pure-ASCII input, and is strictly
smaller when the input contains a multi-byte sequence. -/
theorem createText_transcode_count (bytes : List Nat) (n : Nat)
    (h : utf16Len bytes = some n) :
    n ≤ bytes.length ∧
    ((∀ b ∈ bytes, b < 128) → n = bytes.length) ∧
    ((∃ b ∈ bytes, 128 ≤ b) → n < bytes.length) ∧
    (∀ okF okL t, (createRenderText okF okL bytes).1 = some t → t.chars_len = n) := by
  refine ⟨utf16LenF_le bytes.length bytes n h, ?_,
    utf16LenF_lt bytes.length bytes n h, ?_⟩
  · intro hall
    have h2 := utf16LenF_ascii bytes.length bytes le_rfl hall
    rw [utf16Len] at h
    rw [h2] at h
    simp only [Option.some.injEq] at h
    omega
  · intro okF okL t ht
    cases okF with
    | false => simp [createRenderText] at ht
    | true =>
      cases okL with
      | false => simp [createRenderText] at ht
      | true =>
        have hval : (createRenderText true true bytes).1 =
            some { chars_len := mbToWcLen bytes, format := some 0, layout := some 1 } := rfl
        rw [hval] at ht
        simp only [Option.some.injEq] at ht
        rw [← ht]
        simp [mbToWcLen, h]

/-- Witness for C7 at the concrete bytes of "H" followed by the 3-byte UTF-8
encoding of the euro sign. -/
theorem createText_transcode_count_witness :
    utf16Len [72, 226, 130, 172] = some 2 ∧
    (2 ≤ ([72, 226, 130, 172] : List Nat).length ∧
     ((∀ b ∈ ([72, 226, 130, 172] : List Nat), b < 128) →
        2 = ([72, 226, 130, 172] : List Nat).length) ∧
     ((∃ b ∈ ([72, 226, 130, 172] : List Nat), 128 ≤ b) →
        2 < ([72, 226, 130, 172] : List Nat).length) ∧
     (∀ okF okL t, (createRenderText okF okL [72, 226, 130, 172]).1 = some t →
        t.chars_len = 2)) :=
  ⟨by decide, createText_transcode_count [72, 226, 130, 172] 2 (by decide)⟩

/-- C8: `beginFrame` on an onscreen window opens a draw session on the backend
target and then clears the full surface to opaque white (r = g = b = a = 1);
these are the only two calls it issues, so the clear precedes any draw of the
frame. -/
theorem beginFrame_clears_white (wnd : Window) :
    beginFrame wnd =
      [Ev.beginDrawCall wnd.target, Ev.clearCall wnd.target (colorToD2D 0xFFFFFFFF)] ∧
    colorToD2D 0xFFFFFFFF = { r := 1, g := 1, b := 1, a := 1 } :=
  ⟨rfl, colorToD2D_white⟩

/-- C9: `drawObject` retrieves the object's offscreen bitmap and blits it into
the destination rectangle of the window with opacity 1.0 and linear
interpolation. -/
theorem drawObject_blit_linear (wnd : Window) (obj : Object) (pos : Rect) :
    drawObject wnd obj pos =
      [Ev.getBitmapCall obj.target,
       Ev.drawBitmapCall wnd.target (getBitmapOf obj.target) (rectToD2D pos) 1
         InterpMode.linear] := rfl

/-- C10: the height-constraint update of `resizeText` is attempted only when
the width update succeeded: on width failure the call returns `false`, issues no
`SetMaxHeight` call, and leaves the layout fully unchanged, while on width
success both calls are issued. -/
theorem resizeText_width_gates_height (okH : Bool) (s : LayoutBox) (size : Size) :
    resizeText false okH s size = (false, s, [TEv.setMaxWidthCall size.width]) ∧
    (resizeText true okH s size).2.2 =
      [TEv.setMaxWidthCall size.width, TEv.setMaxHeightCall size.height] := by
  constructor
  · simp [resizeText, setMaxWidth]
  · cases okH <;> simp [resizeText, setMaxWidth, setMaxHeight]

end Cycle
